import Mathlib

/-!
Shallow embedding of the AI Parking API backend (src/main.py, src/schemas.py).

Documents live in an in-memory model of the Mongo document store: each
collection is a list of (id, document) pairs in insertion order.  Ids are
BSON ObjectIds, modelled as 24-character lowercase hexadecimal strings;
`ObjectId(s)` (which accepts 24 hex chars of either case and raises
`InvalidId` otherwise) is modelled by `parseOid`.  Python `float`
arithmetic is modelled by exact rationals; timestamps are rationals
counting minutes.  The transcendental part of `haversine` (floating-point
trigonometry) is abstracted: every theorem about `/recommend` quantifies
over an arbitrary distance function `hav` of the same signature, so the
results hold in particular for the haversine instance.
-/

namespace Parking

/-- Lowercase hex digit characters, digit `n < 16` to `0..9a..f`. -/
def hexChar (n : ℕ) : Char :=
  if n < 10 then Char.ofNat (48 + n) else Char.ofNat (87 + n)

/-- Little-endian fixed-width hex digits of a number (a model of id
rendering; only injectivity below width matters). -/
def hexDigits : ℕ → ℕ → List Char
  | 0, _ => []
  | w + 1, n => hexChar (n % 16) :: hexDigits w (n / 16)

/-- Modelled from the spec: the store assigns fresh opaque string ids
(`insert(collection, record) -> id`, §4.1); we render the store's insertion
counter as a 24-hex-char ObjectId. -/
def genOid (n : ℕ) : String := ⟨hexDigits 24 n⟩

/-- Is `c` a hexadecimal digit (either case), as accepted by `ObjectId`. -/
def isHexDigitChar (c : Char) : Bool :=
  (48 ≤ c.toNat && c.toNat ≤ 57) || (97 ≤ c.toNat && c.toNat ≤ 102)
    || (65 ≤ c.toNat && c.toNat ≤ 70)

/-- `bson.ObjectId` accepts a 24-character hex string. -/
def validOid (s : String) : Bool :=
  s.data.length == 24 && s.data.all isHexDigitChar

/-- `ObjectId(s)`: `some` of the normalised (lowercased) id when `s` is a
valid 24-hex-char ObjectId string, `none` when `ObjectId` raises
`InvalidId`. -/
def parseOid (s : String) : Option String :=
  if validOid s then some ⟨s.data.map Char.toLower⟩ else none

theorem hexChar_inj {a b : ℕ} (ha : a < 16) (hb : b < 16)
    (h : hexChar a = hexChar b) : a = b := by
  revert h
  interval_cases a <;> interval_cases b <;> decide

theorem hexDigits_inj : ∀ (w : ℕ) {a b : ℕ},
    hexDigits w a = hexDigits w b → a % 16 ^ w = b % 16 ^ w := by
  intro w
  induction w with
  | zero => intro a b _; simp [Nat.mod_one]
  | succ w ih =>
    intro a b h
    simp only [hexDigits, List.cons.injEq] at h
    have h1 : a % 16 = b % 16 :=
      hexChar_inj (Nat.mod_lt _ (by norm_num)) (Nat.mod_lt _ (by norm_num)) h.1
    have h2 := ih h.2
    have e : ∀ n : ℕ, n % 16 ^ (w + 1) = n % 16 + 16 * (n / 16 % 16 ^ w) := by
      intro n
      rw [pow_succ, mul_comm (16 ^ w) 16, Nat.mod_mul]
    rw [e, e, h1, h2]

theorem genOid_inj {a b : ℕ} (ha : a < 16 ^ 24) (hb : b < 16 ^ 24)
    (h : genOid a = genOid b) : a = b := by
  have := hexDigits_inj 24 (congrArg String.data h)
  rwa [Nat.mod_eq_of_lt ha, Nat.mod_eq_of_lt hb] at this

/-- The characters produced by `hexChar` are already lowercase. -/
theorem toLower_hexChar {d : ℕ} (hd : d < 16) :
    (hexChar d).toLower = hexChar d := by
  interval_cases d <;> decide

theorem isHexDigitChar_hexChar {d : ℕ} (hd : d < 16) :
    isHexDigitChar (hexChar d) = true := by
  interval_cases d <;> decide

theorem hexDigits_all_hex : ∀ (w n : ℕ), (hexDigits w n).all isHexDigitChar := by
  intro w
  induction w with
  | zero => intro n; rfl
  | succ w ih =>
    intro n
    simp only [hexDigits, List.all_cons, Bool.and_eq_true]
    exact ⟨isHexDigitChar_hexChar (Nat.mod_lt _ (by norm_num)), ih _⟩

theorem hexDigits_length : ∀ (w n : ℕ), (hexDigits w n).length = w := by
  intro w
  induction w with
  | zero => intro n; rfl
  | succ w ih => intro n; simp [hexDigits, ih]

theorem hexDigits_map_toLower : ∀ (w n : ℕ),
    (hexDigits w n).map Char.toLower = hexDigits w n := by
  intro w
  induction w with
  | zero => intro n; rfl
  | succ w ih =>
    intro n
    simp only [hexDigits, List.map_cons, ih,
      toLower_hexChar (Nat.mod_lt _ (by norm_num))]

/-- Store-generated ids parse back to themselves. -/
theorem parseOid_genOid (n : ℕ) : parseOid (genOid n) = some (genOid n) := by
  have hv : validOid (genOid n) = true := by
    simp [validOid, genOid, hexDigits_length, hexDigits_all_hex]
  unfold parseOid
  rw [if_pos hv]
  show some (⟨(hexDigits 24 n).map Char.toLower⟩ : String) = _
  rw [hexDigits_map_toLower]
  rfl

/-- `ParkingSpot.vehicle_type`:
`Literal["car", "motorcycle", "ev", "accessible"]` (src/schemas.py). -/
inductive VType where
  | car
  | motorcycle
  | ev
  | accessible
  deriving DecidableEq

/-- The string value a `VType` stands for in the store. -/
def vtypeStr : VType → String
  | .car => "car"
  | .motorcycle => "motorcycle"
  | .ev => "ev"
  | .accessible => "accessible"

/-- `Booking.status`: `Literal["active", "completed", "cancelled"]`. -/
inductive BStatus where
  | active
  | completed
  | cancelled
  deriving DecidableEq

/-- `ParkingLot` (src/schemas.py). -/
structure LotDoc where
  name : String
  latitude : ℚ
  longitude : ℚ
  address : Option String := none
  price_per_hour : ℚ
  total_spots : ℕ
  deriving DecidableEq

/-- `ParkingSpot` (src/schemas.py). -/
structure SpotDoc where
  lot_id : String
  spot_number : String
  vehicle_type : VType := .car
  is_occupied : Bool := false
  deriving DecidableEq

/-- `Booking` (src/schemas.py). -/
structure BookingDoc where
  lot_id : String
  spot_id : String
  vehicle_plate : String
  user_name : Option String := none
  start_time : Option ℚ := none
  end_time : Option ℚ := none
  status : BStatus := .active
  deriving DecidableEq

/-- The document store: one association list per collection, in insertion
order, plus the counter from which fresh ids are generated. -/
structure DB where
  parkinglot : List (String × LotDoc) := []
  parkingspot : List (String × SpotDoc) := []
  booking : List (String × BookingDoc) := []
  nextId : ℕ := 0
  deriving DecidableEq

def emptyDB : DB := {}

/-- An `HTTPException`: status code and detail string. -/
structure HErr where
  status : ℕ
  detail : String
  deriving DecidableEq

/-- Modelled from the spec: store adapter `find_one` by id (§4.1) — the
first document whose id matches. -/
def findOne {α : Type} (l : List (String × α)) (k : String) : Option (String × α) :=
  l.find? fun p => p.1 == k

/-- Mongo `update_one({"_id": k}, {"$set": ...})`: update the first
document with id `k`, if any. -/
def updateFirst {α : Type} : List (String × α) → String → (α → α) → List (String × α)
  | [], _, _ => []
  | p :: rest, k, f =>
    if p.1 == k then (p.1, f p.2) :: rest else p :: updateFirst rest k f

/-- Response of `POST /seed`. -/
structure SeedResponse where
  status : String
  seeded : Bool
  lot_id : Option String := none
  deriving DecidableEq

/-- Vehicle type of seeded spot `i` (src/main.py, `seed_demo_data`). -/
def seedVType (i : ℕ) : VType :=
  if i = 3 ∨ i = 7 then .ev else if i = 5 then .accessible else .car

/-- The seeded demo lot (src/main.py, `seed_demo_data`). -/
def demoLot : LotDoc :=
  { name := "Downtown Central"
    latitude := 377749 / 10000
    longitude := -1224194 / 10000
    address := some "123 Market St, San Francisco, CA"
    price_per_hour := 5
    total_spots := 12 }

/-- The `for i in range(1, 13)` loop of `seed_demo_data`: one spot per
label, with consecutive store-assigned ids. -/
def seedSpots (lotId : String) : ℕ → List ℕ → List (String × SpotDoc)
  | _, [] => []
  | n, i :: is =>
    (genOid n, { lot_id := lotId, spot_number := toString i,
                 vehicle_type := seedVType i, is_occupied := false })
      :: seedSpots lotId (n + 1) is

/-- `POST /seed` (`seed_demo_data`). -/
def seed (db : DB) : SeedResponse × DB :=
  match db.parkinglot with
  | _ :: _ => ({ status := "ok", seeded := false }, db)
  | [] =>
    let lotId := genOid db.nextId
    ({ status := "ok", seeded := true, lot_id := some lotId },
     { db with
        parkinglot := db.parkinglot ++ [(lotId, demoLot)]
        parkingspot := db.parkingspot ++ seedSpots lotId (db.nextId + 1) (List.range' 1 12)
        nextId := db.nextId + 13 })

/-- Request body of `POST /recommend`. -/
structure RecommendationRequest where
  lat : ℚ
  lng : ℚ
  vehicle_type : Option String := none

/-- Response body of `POST /recommend`. -/
structure RecommendationResponse where
  lot_id : String
  lot_name : String
  spot_id : Option String
  spot_number : Option String
  reason : String
  deriving DecidableEq

/-- Python truthiness of `req.vehicle_type : Optional[str]`: `None` and
`""` are falsy. -/
def truthy : Option String → Bool
  | none => false
  | some s => !(s == "")

/-- The spot list the loop body of `recommend_parking` sees for one lot:
unoccupied spots of that lot and, when the `vehicle_type` filter is
truthy, only those whose category matches it. -/
def qualifying (spots : List (String × SpotDoc)) (lotId : String) (vt : Option String) :
    List (String × SpotDoc) :=
  let base := spots.filter fun p => p.2.lot_id == lotId && !p.2.is_occupied
  if truthy vt then base.filter fun p => vtypeStr p.2.vehicle_type == vt.getD "" else base

/-- One iteration of the `for lot in lots` loop of `recommend_parking`;
the accumulator is `none` for Python's `best = None, best_score = inf`
and otherwise the current best `(best_score, best, chosen_spot)`.  A lot
with no qualifying spots is skipped (`continue`); otherwise its score is
`dist - 0.05 * len(spots)` and it replaces the best exactly when its
score is strictly smaller. -/
def recStep (hav : ℚ → ℚ → ℚ → ℚ → ℚ) (db : DB) (req : RecommendationRequest)
    (acc : Option (ℚ × (String × LotDoc) × (String × SpotDoc))) (l : String × LotDoc) :
    Option (ℚ × (String × LotDoc) × (String × SpotDoc)) :=
  match qualifying db.parkingspot l.1 req.vehicle_type with
  | [] => acc
  | s0 :: rest =>
    let sc := hav req.lat req.lng l.2.latitude l.2.longitude
                - 1 / 20 * (((s0 :: rest).length : ℚ))
    match acc with
    | none => some (sc, l, s0)
    | some (bs, bl, bsp) => if sc < bs then some (sc, l, s0) else some (bs, bl, bsp)

/-- The whole `for lot in lots` loop. -/
def recLoop (hav : ℚ → ℚ → ℚ → ℚ → ℚ) (db : DB) (req : RecommendationRequest) :
    List (String × LotDoc) → Option (ℚ × (String × LotDoc) × (String × SpotDoc)) →
      Option (ℚ × (String × LotDoc) × (String × SpotDoc))
  | [], acc => acc
  | l :: ls, acc => recLoop hav db req ls (recStep hav db req acc l)

/-- `POST /recommend` (`recommend_parking`), parameterised by the distance
function `hav` standing for the floating-point `haversine`. -/
def recommend (hav : ℚ → ℚ → ℚ → ℚ → ℚ) (db : DB) (req : RecommendationRequest) :
    Except HErr RecommendationResponse :=
  match db.parkinglot with
  | [] => .error ⟨404, "No parking lots available. Seed data first."⟩
  | _ :: _ =>
    match recLoop hav db req db.parkinglot none with
    | none => .error ⟨404, "No suitable spots found"⟩
    | some (_, l, sp) =>
      .ok { lot_id := l.1, lot_name := l.2.name, spot_id := some sp.1,
            spot_number := some sp.2.spot_number,
            reason := "Closest lot with available matching spots" }

/-- Request body of `POST /book/start`. -/
structure StartBookingRequest where
  lot_id : String
  spot_id : String
  vehicle_plate : String
  user_name : Option String := none

/-- Response body of `POST /book/start`. -/
structure BookingResponse where
  booking_id : String
  status : String
  deriving DecidableEq

/-- `POST /book/start` (`start_booking`).  The result of the lot
`find_one` is bound to `_` in the source and discarded; only a raise from
`ObjectId(req.lot_id)` stops the call. -/
def start_booking (db : DB) (req : StartBookingRequest) (now : ℚ) :
    Except HErr (BookingResponse × DB) :=
  match parseOid req.lot_id with
  | none => .error ⟨400, "Invalid lot id"⟩
  | some _ =>
    match parseOid req.spot_id with
    | none => .error ⟨400, "Invalid spot id"⟩
    | some spotOid =>
      match findOne db.parkingspot spotOid with
      | none => .error ⟨404, "Spot not found"⟩
      | some (sid, sp) =>
        if sp.is_occupied then .error ⟨409, "Spot already occupied"⟩
        else
          let spots := updateFirst db.parkingspot sid fun s => { s with is_occupied := true }
          let bid := genOid db.nextId
          let doc : BookingDoc :=
            { lot_id := req.lot_id, spot_id := req.spot_id,
              vehicle_plate := req.vehicle_plate, user_name := req.user_name,
              start_time := some now, end_time := none, status := .active }
          let db' : DB :=
            { db with
                parkingspot := spots
                booking := db.booking ++ [(bid, doc)]
                nextId := db.nextId + 1 }
          .ok ({ booking_id := bid, status := "active" }, db')

/-- Response body of `POST /book/end`. -/
structure EndBookingResult where
  duration_minutes : ℚ
  amount_due : ℚ
  currency : String := "USD"
  deriving DecidableEq

/-- Python `round(x)` on rationals: round half to even. -/
def roundHalfEven (q : ℚ) : ℤ :=
  if Int.fract q < 1 / 2 then ⌊q⌋
  else if 1 / 2 < Int.fract q then ⌊q⌋ + 1
  else if ⌊q⌋ % 2 = 0 then ⌊q⌋ else ⌊q⌋ + 1

/-- Python `round(x, 2)`: round to 2 decimal places, half to even. -/
def round2 (q : ℚ) : ℚ := (roundHalfEven (q * 100) : ℚ) / 100

/-- The `price_per_hour` used by `end_booking`: the booking's lot's rate,
or `5.0` when the lot reference is falsy, malformed, or absent. -/
def resolvedPrice (db : DB) (b : BookingDoc) : ℚ :=
  if b.lot_id == "" then 5
  else
    match parseOid b.lot_id with
    | none => 5
    | some lo =>
      match findOne db.parkinglot lo with
      | none => 5
      | some (_, lot) => lot.price_per_hour

/-- The best-effort spot release of `end_booking` (its final
`try/except`): update the spot the booking's `spot_id` resolves to, and
change nothing when `ObjectId` raises. -/
def freeSpot (spots : List (String × SpotDoc)) (spot_id : String) :
    List (String × SpotDoc) :=
  match parseOid spot_id with
  | none => spots
  | some so => updateFirst spots so fun s => { s with is_occupied := false }

/-- `POST /book/end` (`end_booking`).  `now` is the single current UTC
time of the call, in minutes. -/
def end_booking (db : DB) (booking_id : String) (now : ℚ) :
    Except HErr (EndBookingResult × DB) :=
  match parseOid booking_id with
  | none => .error ⟨400, "Invalid booking id"⟩
  | some boid =>
    match findOne db.booking boid with
    | none => .error ⟨404, "Booking not found"⟩
    | some (bid, b) =>
      if b.status ≠ .active then .error ⟨409, "Booking already closed"⟩
      else
        let minutes := now - b.start_time.getD now
        let cost := round2 (minutes / 60 * resolvedPrice db b)
        let bookings := updateFirst db.booking bid
          fun bb => { bb with status := .completed, end_time := some now }
        let spots := freeSpot db.parkingspot b.spot_id
        .ok ({ duration_minutes := minutes, amount_due := cost, currency := "USD" },
             { db with booking := bookings, parkingspot := spots })

/-- The database after a `/book/start` call: unchanged when the handler
raises (every raise in the source happens before any write). -/
def runStart (db : DB) (req : StartBookingRequest) (now : ℚ) : DB :=
  match start_booking db req now with
  | .ok (_, db') => db'
  | .error _ => db

/-- The database after a `/book/end` call: unchanged when the handler
raises (every raise in the source happens before any write). -/
def runEnd (db : DB) (booking_id : String) (now : ℚ) : DB :=
  match end_booking db booking_id now with
  | .ok (_, db') => db'
  | .error _ => db

/-- One state-changing API call. -/
inductive Op where
  | seedOp : Op
  | startOp : StartBookingRequest → ℚ → Op
  | endOp : String → ℚ → Op

/-- Effect of one call on the store. -/
def step (db : DB) : Op → DB
  | .seedOp => (seed db).2
  | .startOp req now => runStart db req now
  | .endOp bid now => runEnd db bid now

/-- The store reached by a sequence of calls from the empty store. -/
def run (ops : List Op) : DB := ops.foldl step emptyDB

/-- Does booking `b` reference the spot stored under id `sid`, i.e. does
its `spot_id` string resolve to that id? -/
def refsSpot (b : BookingDoc) (sid : String) : Bool :=
  parseOid b.spot_id == some sid

/-- Number of active bookings referencing the spot with id `sid`. -/
def activeCount (bookings : List (String × BookingDoc)) (sid : String) : ℕ :=
  (bookings.filter fun p => p.2.status == BStatus.active && refsSpot p.2 sid).length

/-- The score `recommend_parking` assigns to a lot:
`haversine(req, lot) - 0.05 * len(qualifying spots)`, lower is better. -/
def lotScore (hav : ℚ → ℚ → ℚ → ℚ → ℚ) (db : DB) (req : RecommendationRequest)
    (l : String × LotDoc) : ℚ :=
  hav req.lat req.lng l.2.latitude l.2.longitude
    - 1 / 20 * ((qualifying db.parkingspot l.1 req.vehicle_type).length : ℚ)

/-- Loop invariant of `recommend_parking`: after scanning `seen`, the
accumulator is `none` exactly when every scanned lot was skipped, and
otherwise holds the first scanned lot of minimal score together with its
score and its first qualifying spot. -/
def AccGood (hav : ℚ → ℚ → ℚ → ℚ → ℚ) (db : DB) (req : RecommendationRequest)
    (seen : List (String × LotDoc)) :
    Option (ℚ × (String × LotDoc) × (String × SpotDoc)) → Prop
  | none => ∀ l ∈ seen, qualifying db.parkingspot l.1 req.vehicle_type = []
  | some (sc, l, sp) =>
      sc = lotScore hav db req l ∧
      (∃ tl, qualifying db.parkingspot l.1 req.vehicle_type = sp :: tl) ∧
      (∃ pre post, seen = pre ++ l :: post ∧
        ∀ l' ∈ pre, qualifying db.parkingspot l'.1 req.vehicle_type = [] ∨
          sc < lotScore hav db req l') ∧
      (∀ l' ∈ seen, qualifying db.parkingspot l'.1 req.vehicle_type = [] ∨
        sc ≤ lotScore hav db req l')

/-- Did the HTTP call succeed (no exception raised)? -/
def isOk {ε α : Type} : Except ε α → Bool
  | .ok _ => true
  | .error _ => false

/-- The store invariant of the booking workflow: occupancy matches the
number of active bookings per spot, spot ids are unique, and no spots or
bookings exist before the first lot does. -/
def Inv (db : DB) : Prop :=
  (∀ p ∈ db.parkingspot, activeCount db.booking p.1 = if p.2.is_occupied then 1 else 0) ∧
  (db.parkingspot.map Prod.fst).Nodup ∧
  (db.parkinglot = [] → db.parkingspot = []) ∧
  (db.parkinglot = [] → db.booking = [])

/-- The store right after `POST /seed` on the empty store. -/
def demoDB : DB := (seed emptyDB).2

/-- A store holding a single, occupied spot (id: 24 `a`s). -/
def occDB : DB :=
  { parkingspot := [("aaaaaaaaaaaaaaaaaaaaaaaa",
      { lot_id := "x", spot_number := "1", vehicle_type := .car, is_occupied := true })] }

/-- A start request for `occDB`'s occupied spot whose `lot_id` is not a
valid ObjectId. -/
def badLotReq : StartBookingRequest :=
  { lot_id := "zz", spot_id := "aaaaaaaaaaaaaaaaaaaaaaaa", vehicle_plate := "CA-1234" }

/-- A start request for `occDB`'s occupied spot whose `lot_id` is a
well-formed ObjectId (24 `c`s). -/
def occReq : StartBookingRequest :=
  { lot_id := "cccccccccccccccccccccccc", spot_id := "aaaaaaaaaaaaaaaaaaaaaaaa",
    vehicle_plate := "CA-1234" }

/-- A start request against the seeded store whose `lot_id` is a
well-formed ObjectId (24 `b`s) held by no document. -/
def absentLotReq : StartBookingRequest :=
  { lot_id := "bbbbbbbbbbbbbbbbbbbbbbbb", spot_id := genOid 1, vehicle_plate := "CA-1234" }

/-- The seeded store after booking spot 3 (the first EV spot) at time 100. -/
def demoBookedDB : DB :=
  runStart demoDB { lot_id := genOid 0, spot_id := genOid 3, vehicle_plate := "CA-1234" } 100

/-- The booking document created by that call (id `genOid 13`). -/
def bdoc13 : BookingDoc :=
  { lot_id := genOid 0, spot_id := genOid 3, vehicle_plate := "CA-1234",
    user_name := none, start_time := some 100, end_time := none, status := .active }

/-- A stand-in distance function for concrete recommendation runs. -/
def hav0 : ℚ → ℚ → ℚ → ℚ → ℚ := fun _ _ _ _ => 0

/-- A recommendation request with no vehicle-type filter. -/
def req0 : RecommendationRequest := { lat := 0, lng := 0, vehicle_type := none }

/-- A recommendation request filtering for EV spots. -/
def reqEv : RecommendationRequest := { lat := 0, lng := 0, vehicle_type := some "ev" }

/-- The seeded store with both EV spots (3 and 7) booked. -/
def evOccDB : DB :=
  runStart
    (runStart demoDB { lot_id := genOid 0, spot_id := genOid 3, vehicle_plate := "P1" } 0)
    { lot_id := genOid 0, spot_id := genOid 7, vehicle_plate := "P2" } 0

/-! ### Store-level lemmas -/

theorem findOne_key {α : Type} {l : List (String × α)} {k : String} {p : String × α}
    (h : findOne l k = some p) : p.1 = k := by
  have := List.find?_some h
  simpa using this

theorem findOne_mem {α : Type} {l : List (String × α)} {k : String} {p : String × α}
    (h : findOne l k = some p) : p ∈ l :=
  List.mem_of_find?_eq_some h

theorem findOne_none {α : Type} {l : List (String × α)} {k : String}
    (h : findOne l k = none) : ∀ p ∈ l, p.1 ≠ k := by
  intro p hp
  have := List.find?_eq_none.1 h p hp
  simpa using this

theorem updateFirst_of_findOne_none {α : Type} {l : List (String × α)} {k : String}
    (h : findOne l k = none) (f : α → α) : updateFirst l k f = l := by
  induction l with
  | nil => rfl
  | cons p rest ih =>
    have hp : (p.1 == k) = false := by
      have := findOne_none h p (List.mem_cons_self p rest)
      simpa using this
    have hrest : findOne rest k = none := by
      have h' := h
      unfold findOne at h' ⊢
      rwa [show (p :: rest).find? (fun r => r.1 == k) = rest.find? (fun r => r.1 == k)
        from List.find?_cons_of_neg _ (by simp [hp])] at h'
    simp only [updateFirst, hp, if_neg, Bool.false_eq_true, not_false_iff]
    rw [ih hrest]

theorem updateFirst_decomp {α : Type} {l : List (String × α)} {k : String} {p : String × α}
    (h : findOne l k = some p) (f : α → α) :
    ∃ l1 l2, l = l1 ++ p :: l2 ∧ (∀ q ∈ l1, q.1 ≠ k) ∧
      updateFirst l k f = l1 ++ (p.1, f p.2) :: l2 := by
  induction l with
  | nil => simp [findOne] at h
  | cons q rest ih =>
    by_cases hq : q.1 = k
    · have hqk : (q.1 == k) = true := by simpa using hq
      have hqp : q = p := by
        unfold findOne at h
        rw [show (q :: rest).find? (fun r => r.1 == k) = some q
          from List.find?_cons_of_pos _ hqk] at h
        exact Option.some.inj h
      refine ⟨[], rest, by simp [hqp], by simp, ?_⟩
      show updateFirst (q :: rest) k f = (p.1, f p.2) :: rest
      unfold updateFirst
      rw [if_pos hqk, hqp]
    · have hqk : (q.1 == k) = false := by simpa using hq
      have hrest : findOne rest k = some p := by
        unfold findOne at h ⊢
        rwa [show (q :: rest).find? (fun r => r.1 == k) = rest.find? (fun r => r.1 == k)
          from List.find?_cons_of_neg _ (by simp [hqk])] at h
      obtain ⟨l1, l2, he, hne, hu⟩ := ih hrest
      refine ⟨q :: l1, l2, by simp [he], ?_, ?_⟩
      · intro r hr
        rcases List.mem_cons.1 hr with rfl | hr
        · exact hq
        · exact hne r hr
      · simp [updateFirst, hqk, hu]

theorem findOne_updateFirst_self {α : Type} {l : List (String × α)} {k : String}
    {p : String × α} (h : findOne l k = some p) (f : α → α) :
    findOne (updateFirst l k f) k = some (p.1, f p.2) := by
  obtain ⟨l1, l2, _, hne, hu⟩ := updateFirst_decomp h f
  rw [hu]
  unfold findOne
  rw [List.find?_append]
  have h1 : l1.find? (fun q => q.1 == k) = none := by
    rw [List.find?_eq_none]
    intro q hq
    simpa using hne q hq
  rw [h1]
  have : ((p.1, f p.2).1 == k) = true := by simpa using findOne_key h
  simp [List.find?_cons, this]

theorem updateFirst_map_fst {α : Type} (l : List (String × α)) (k : String) (f : α → α) :
    (updateFirst l k f).map Prod.fst = l.map Prod.fst := by
  induction l with
  | nil => rfl
  | cons p rest ih =>
    by_cases hp : (p.1 == k) = true
    · simp [updateFirst, hp]
    · simp only [updateFirst, Bool.not_eq_true] at hp ⊢
      rw [if_neg (by simp [hp])]
      simp [ih]

theorem activeCount_append (l1 l2 : List (String × BookingDoc)) (sid : String) :
    activeCount (l1 ++ l2) sid = activeCount l1 sid + activeCount l2 sid := by
  simp [activeCount, List.filter_append]

theorem activeCount_cons (p : String × BookingDoc) (l : List (String × BookingDoc))
    (sid : String) :
    activeCount (p :: l) sid =
      (if p.2.status == BStatus.active && refsSpot p.2 sid then 1 else 0)
        + activeCount l sid := by
  by_cases h : (p.2.status == BStatus.active && refsSpot p.2 sid) = true
  · simp [activeCount, List.filter_cons, h, Nat.add_comm]
  · simp [activeCount, List.filter_cons, h]

theorem activeCount_nil (sid : String) : activeCount [] sid = 0 := rfl

theorem parseOid_ne_empty {s k : String} (h : parseOid s = some k) : (s == "") = false := by
  cases hs : (s == "") with
  | false => rfl
  | true =>
    exfalso
    have hse : s = "" := by simpa using hs
    rw [hse] at h
    simp [parseOid, validOid] at h

/-! ### Success characterizations of the booking handlers -/

/-- Inversion of a successful `start_booking`: the spot id parsed, the
spot was found free, and the new store is the old one with that spot
occupied and one fresh active booking appended. -/
theorem start_booking_ok_char {db : DB} {req : StartBookingRequest} {now : ℚ}
    {r : BookingResponse} {db' : DB}
    (h : start_booking db req now = .ok (r, db')) :
    ∃ sid sp, parseOid req.spot_id = some sid ∧
      findOne db.parkingspot sid = some (sid, sp) ∧
      sp.is_occupied = false ∧
      r = { booking_id := genOid db.nextId, status := "active" } ∧
      db' = { db with
        parkingspot := updateFirst db.parkingspot sid fun s => { s with is_occupied := true }
        booking := db.booking ++ [(genOid db.nextId,
          { lot_id := req.lot_id, spot_id := req.spot_id,
            vehicle_plate := req.vehicle_plate, user_name := req.user_name,
            start_time := some now, end_time := none, status := .active })]
        nextId := db.nextId + 1 } := by
  rcases hpl : parseOid req.lot_id with _ | lo
  · simp [start_booking, hpl] at h
  rcases hps : parseOid req.spot_id with _ | so
  · simp [start_booking, hpl, hps] at h
  rcases hf : findOne db.parkingspot so with _ | p
  · simp [start_booking, hpl, hps, hf] at h
  obtain ⟨sid, sp⟩ := p
  have hsid : sid = so := findOne_key hf
  subst hsid
  cases hocc : sp.is_occupied with
  | true => simp [start_booking, hpl, hps, hf, hocc] at h
  | false =>
    simp only [start_booking, hpl, hps, hf, hocc] at h
    rw [if_neg (by simp)] at h
    rw [Except.ok.injEq, Prod.mk.injEq] at h
    exact ⟨sid, sp, rfl, hf, hocc, h.1.symm, h.2.symm⟩

/-- Inversion of a successful `end_booking`: the booking id parsed, an
active booking was found, and the new store closes that booking and
best-effort frees the spot its `spot_id` resolves to. -/
theorem end_booking_ok_char {db : DB} {booking_id : String} {now : ℚ}
    {r : EndBookingResult} {db' : DB}
    (h : end_booking db booking_id now = .ok (r, db')) :
    ∃ bid b, parseOid booking_id = some bid ∧
      findOne db.booking bid = some (bid, b) ∧
      b.status = .active ∧
      r = { duration_minutes := now - b.start_time.getD now,
            amount_due := round2 ((now - b.start_time.getD now) / 60 * resolvedPrice db b),
            currency := "USD" } ∧
      db' = { db with
        booking := updateFirst db.booking bid
          fun bb => { bb with status := .completed, end_time := some now }
        parkingspot := freeSpot db.parkingspot b.spot_id } := by
  rcases hpb : parseOid booking_id with _ | boid
  · simp [end_booking, hpb] at h
  rcases hfb : findOne db.booking boid with _ | p
  · simp [end_booking, hpb, hfb] at h
  obtain ⟨bid, b⟩ := p
  have hbid : bid = boid := findOne_key hfb
  subst hbid
  by_cases hact : b.status = BStatus.active
  · simp only [end_booking, hpb, hfb, hact] at h
    rw [if_neg (by simp)] at h
    rw [Except.ok.injEq, Prod.mk.injEq] at h
    exact ⟨bid, b, rfl, hfb, hact, h.1.symm, h.2.symm⟩
  · simp [end_booking, hpb, hfb, hact] at h

/-! ### Recommendation loop congruence -/

theorem recStep_congr (hav : ℚ → ℚ → ℚ → ℚ → ℚ) (db : DB)
    (req1 req2 : RecommendationRequest) (hlat : req1.lat = req2.lat)
    (hlng : req1.lng = req2.lng)
    (hq : ∀ lotId, qualifying db.parkingspot lotId req1.vehicle_type
      = qualifying db.parkingspot lotId req2.vehicle_type)
    (acc : Option (ℚ × (String × LotDoc) × (String × SpotDoc))) (l : String × LotDoc) :
    recStep hav db req1 acc l = recStep hav db req2 acc l := by
  unfold recStep
  simp only [hq, hlat, hlng]

theorem recLoop_congr (hav : ℚ → ℚ → ℚ → ℚ → ℚ) (db : DB)
    (req1 req2 : RecommendationRequest) (hlat : req1.lat = req2.lat)
    (hlng : req1.lng = req2.lng)
    (hq : ∀ lotId, qualifying db.parkingspot lotId req1.vehicle_type
      = qualifying db.parkingspot lotId req2.vehicle_type) :
    ∀ (ls : List (String × LotDoc)) (acc : Option (ℚ × (String × LotDoc) × (String × SpotDoc))),
      recLoop hav db req1 ls acc = recLoop hav db req2 ls acc := by
  intro ls
  induction ls with
  | nil => intro acc; rfl
  | cons l ls ih =>
    intro acc
    show recLoop hav db req1 (l :: ls) acc = recLoop hav db req2 (l :: ls) acc
    unfold recLoop
    rw [recStep_congr hav db req1 req2 hlat hlng hq acc l]
    exact ih _

/-! ### Recommendation loop invariant -/

theorem recStep_qual_nil (hav : ℚ → ℚ → ℚ → ℚ → ℚ) (db : DB) (req : RecommendationRequest)
    (acc : Option (ℚ × (String × LotDoc) × (String × SpotDoc))) (l : String × LotDoc)
    (hq : qualifying db.parkingspot l.1 req.vehicle_type = []) :
    recStep hav db req acc l = acc := by
  simp [recStep, hq]

theorem recStep_qual_cons_none (hav : ℚ → ℚ → ℚ → ℚ → ℚ) (db : DB)
    (req : RecommendationRequest) (l : String × LotDoc) (s0 : String × SpotDoc)
    (rest : List (String × SpotDoc))
    (hq : qualifying db.parkingspot l.1 req.vehicle_type = s0 :: rest) :
    recStep hav db req none l = some (lotScore hav db req l, l, s0) := by
  simp [recStep, hq, lotScore]

theorem recStep_qual_cons_some (hav : ℚ → ℚ → ℚ → ℚ → ℚ) (db : DB)
    (req : RecommendationRequest) (l : String × LotDoc) (s0 : String × SpotDoc)
    (rest : List (String × SpotDoc)) (bs : ℚ) (bl : String × LotDoc)
    (bsp : String × SpotDoc)
    (hq : qualifying db.parkingspot l.1 req.vehicle_type = s0 :: rest) :
    recStep hav db req (some (bs, bl, bsp)) l =
      if lotScore hav db req l < bs then some (lotScore hav db req l, l, s0)
      else some (bs, bl, bsp) := by
  simp [recStep, hq, lotScore]

theorem accGood_step (hav : ℚ → ℚ → ℚ → ℚ → ℚ) (db : DB) (req : RecommendationRequest)
    (seen : List (String × LotDoc)) (acc : Option (ℚ × (String × LotDoc) × (String × SpotDoc)))
    (l : String × LotDoc) (hg : AccGood hav db req seen acc) :
    AccGood hav db req (seen ++ [l]) (recStep hav db req acc l) := by
  rcases hq : qualifying db.parkingspot l.1 req.vehicle_type with _ | ⟨s0, rest⟩
  · rw [recStep_qual_nil hav db req acc l hq]
    rcases acc with _ | ⟨sc, bl, bsp⟩
    · intro l' hl'
      rcases List.mem_append.1 hl' with h | h
      · exact hg l' h
      · rw [List.mem_singleton.1 h]
        exact hq
    · obtain ⟨h1, h2, ⟨pre, post, hseen, hpre⟩, hall⟩ := hg
      refine ⟨h1, h2, ⟨pre, post ++ [l], by rw [hseen]; simp, hpre⟩, ?_⟩
      intro l' hl'
      rcases List.mem_append.1 hl' with h | h
      · exact hall l' h
      · rw [List.mem_singleton.1 h]
        exact Or.inl hq
  · rcases acc with _ | ⟨bs, bl, bsp⟩
    · rw [recStep_qual_cons_none hav db req l s0 rest hq]
      refine ⟨rfl, ⟨rest, hq⟩, ⟨seen, [], by simp, ?_⟩, ?_⟩
      · intro l' hl'
        exact Or.inl (hg l' hl')
      · intro l' hl'
        rcases List.mem_append.1 hl' with h | h
        · exact Or.inl (hg l' h)
        · rw [List.mem_singleton.1 h]
          exact Or.inr le_rfl
    · obtain ⟨h1, h2, ⟨pre, post, hseen, hpre⟩, hall⟩ := hg
      rw [recStep_qual_cons_some hav db req l s0 rest bs bl bsp hq]
      by_cases hlt : lotScore hav db req l < bs
      · rw [if_pos hlt]
        refine ⟨rfl, ⟨rest, hq⟩, ⟨seen, [], by simp, ?_⟩, ?_⟩
        · intro l' hl'
          rcases hall l' hl' with h | h
          · exact Or.inl h
          · exact Or.inr (lt_of_lt_of_le hlt h)
        · intro l' hl'
          rcases List.mem_append.1 hl' with h | h
          · rcases hall l' h with h' | h'
            · exact Or.inl h'
            · exact Or.inr (le_trans (le_of_lt hlt) h')
          · rw [List.mem_singleton.1 h]
            exact Or.inr le_rfl
      · rw [if_neg hlt]
        refine ⟨h1, h2, ⟨pre, post ++ [l], by rw [hseen]; simp, hpre⟩, ?_⟩
        intro l' hl'
        rcases List.mem_append.1 hl' with h | h
        · exact hall l' h
        · rw [List.mem_singleton.1 h]
          exact Or.inr (not_lt.1 hlt)

theorem recLoop_good (hav : ℚ → ℚ → ℚ → ℚ → ℚ) (db : DB) (req : RecommendationRequest) :
    ∀ (ls seen : List (String × LotDoc))
      (acc : Option (ℚ × (String × LotDoc) × (String × SpotDoc))),
      AccGood hav db req seen acc →
      AccGood hav db req (seen ++ ls) (recLoop hav db req ls acc) := by
  intro ls
  induction ls with
  | nil =>
    intro seen acc hg
    simpa [recLoop] using hg
  | cons l ls ih =>
    intro seen acc hg
    have h1 := ih (seen ++ [l]) (recStep hav db req acc l) (accGood_step hav db req seen acc l hg)
    rw [List.append_assoc] at h1
    simpa [recLoop] using h1

theorem recLoop_all_nil (hav : ℚ → ℚ → ℚ → ℚ → ℚ) (db : DB) (req : RecommendationRequest) :
    ∀ (ls : List (String × LotDoc))
      (acc : Option (ℚ × (String × LotDoc) × (String × SpotDoc))),
      (∀ l ∈ ls, qualifying db.parkingspot l.1 req.vehicle_type = []) →
      recLoop hav db req ls acc = acc := by
  intro ls
  induction ls with
  | nil => intro acc _; rfl
  | cons l ls ih =>
    intro acc hall
    show recLoop hav db req ls (recStep hav db req acc l) = acc
    rw [recStep_qual_nil hav db req acc l (hall l (List.mem_cons_self l ls))]
    exact ih acc fun l' hl' => hall l' (List.mem_cons_of_mem l hl')

/-- The detail strings of the two 404s of `/recommend`. -/
theorem recommend_error_strings :
    ("No parking lots available. Seed data first." : String) ≠ "No suitable spots found" := by
  decide

theorem recommend_noLots_iff (hav : ℚ → ℚ → ℚ → ℚ → ℚ) (db : DB)
    (req : RecommendationRequest) :
    recommend hav db req = .error ⟨404, "No parking lots available. Seed data first."⟩ ↔
      db.parkinglot = [] := by
  constructor
  · intro h
    rcases hl : db.parkinglot with _ | ⟨x, xs⟩
    · rfl
    · exfalso
      rcases hr : recLoop hav db req (x :: xs) none with _ | ⟨sc, l, sp⟩
      · simp only [recommend, hl, hr] at h
        rw [Except.error.injEq, HErr.mk.injEq] at h
        exact recommend_error_strings h.2.symm
      · simp only [recommend, hl, hr] at h
        exact Except.noConfusion h
  · intro hl
    simp [recommend, hl]

theorem recommend_noSuitable_iff (hav : ℚ → ℚ → ℚ → ℚ → ℚ) (db : DB)
    (req : RecommendationRequest) :
    recommend hav db req = .error ⟨404, "No suitable spots found"⟩ ↔
      (db.parkinglot ≠ [] ∧
        ∀ l ∈ db.parkinglot, qualifying db.parkingspot l.1 req.vehicle_type = []) := by
  constructor
  · intro h
    rcases hl : db.parkinglot with _ | ⟨x, xs⟩
    · exfalso
      simp only [recommend, hl] at h
      rw [Except.error.injEq, HErr.mk.injEq] at h
      exact recommend_error_strings h.2
    · refine ⟨by simp [hl], ?_⟩
      rcases hr : recLoop hav db req (x :: xs) none with _ | ⟨sc, l, sp⟩
      · have hg := recLoop_good hav db req (x :: xs) [] none (by intro l hl'; cases hl')
        rw [hr] at hg
        exact hg
      · exfalso
        simp only [recommend, hl, hr] at h
        exact Except.noConfusion h
  · rintro ⟨hne, hall⟩
    rcases hl : db.parkinglot with _ | ⟨x, xs⟩
    · exact absurd hl hne
    · have hr : recLoop hav db req (x :: xs) none = none := by
        refine recLoop_all_nil hav db req (x :: xs) none ?_
        intro l' hl'
        exact hall l' (hl ▸ hl')
      simp [recommend, hl, hr]

theorem recommend_ok_char {hav : ℚ → ℚ → ℚ → ℚ → ℚ} {db : DB}
    {req : RecommendationRequest} {resp : RecommendationResponse}
    (h : recommend hav db req = .ok resp) :
    ∃ pre l post sp tl,
      db.parkinglot = pre ++ l :: post ∧
      qualifying db.parkingspot l.1 req.vehicle_type = sp :: tl ∧
      (∀ l' ∈ pre, qualifying db.parkingspot l'.1 req.vehicle_type = [] ∨
        lotScore hav db req l < lotScore hav db req l') ∧
      (∀ l' ∈ db.parkinglot, qualifying db.parkingspot l'.1 req.vehicle_type = [] ∨
        lotScore hav db req l ≤ lotScore hav db req l') ∧
      resp = { lot_id := l.1, lot_name := l.2.name, spot_id := some sp.1,
               spot_number := some sp.2.spot_number,
               reason := "Closest lot with available matching spots" } := by
  rcases hl : db.parkinglot with _ | ⟨x, xs⟩
  · simp [recommend, hl] at h
  rcases hr : recLoop hav db req (x :: xs) none with _ | ⟨sc, l, sp⟩
  · simp [recommend, hl, hr] at h
  have hg := recLoop_good hav db req (x :: xs) [] none (by intro l' hl'; cases hl')
  rw [hr] at hg
  obtain ⟨hsc, ⟨tl, hq⟩, ⟨pre, post, hseen, hpre⟩, hall⟩ := hg
  simp only [List.nil_append] at hseen hall
  refine ⟨pre, l, post, sp, tl, hseen, hq, ?_, ?_, ?_⟩
  · intro l' hl'
    rcases hpre l' hl' with h' | h'
    · exact Or.inl h'
    · exact Or.inr (hsc ▸ h')
  · intro l' hl'
    rcases hall l' hl' with h' | h'
    · exact Or.inl h'
    · exact Or.inr (hsc ▸ h')
  · simp only [recommend, hl, hr] at h
    rw [Except.ok.injEq] at h
    exact h.symm

/-! ### Qualifying-spot lemmas -/

theorem mem_qualifying {spots : List (String × SpotDoc)} {lotId : String}
    {vt : Option String} {p : String × SpotDoc}
    (hp : p ∈ qualifying spots lotId vt) :
    p ∈ spots ∧ p.2.lot_id = lotId ∧ p.2.is_occupied = false := by
  unfold qualifying at hp
  have hbase : p ∈ spots.filter fun q => q.2.lot_id == lotId && !q.2.is_occupied := by
    rcases ht : truthy vt with _ | _
    · rw [ht] at hp
      simpa using hp
    · rw [ht] at hp
      simp only [if_true] at hp
      exact (List.mem_filter.1 hp).1
  obtain ⟨hmem, hcond⟩ := List.mem_filter.1 hbase
  rw [Bool.and_eq_true] at hcond
  refine ⟨hmem, by simpa using hcond.1, by simpa using hcond.2⟩

theorem mem_qualifying_vtype {spots : List (String × SpotDoc)} {lotId : String}
    {s : String} {p : String × SpotDoc} (hs : s ≠ "")
    (hp : p ∈ qualifying spots lotId (some s)) :
    vtypeStr p.2.vehicle_type = s := by
  unfold qualifying at hp
  have ht : truthy (some s) = true := by simp [truthy, hs]
  rw [ht] at hp
  simp only [if_true] at hp
  have := (List.mem_filter.1 hp).2
  simpa using this

theorem qualifying_empty_of_all_occupied {spots : List (String × SpotDoc)} {lotId : String}
    {s : String} (hs : s ≠ "")
    (hocc : ∀ p ∈ spots, vtypeStr p.2.vehicle_type = s → p.2.is_occupied = true) :
    qualifying spots lotId (some s) = [] := by
  rcases he : qualifying spots lotId (some s) with _ | ⟨p, rest⟩
  · rfl
  · exfalso
    have hp : p ∈ qualifying spots lotId (some s) := by
      rw [he]
      exact List.mem_cons_self p rest
    obtain ⟨hmem, -, hunocc⟩ := mem_qualifying hp
    have hv := mem_qualifying_vtype hs hp
    have := hocc p hmem hv
    rw [hunocc] at this
    exact Bool.noConfusion this

/-! ### Reachability invariant -/

theorem genOid_inj_close {a b : ℕ} (hab : a ≤ b) (hd : b - a < 16 ^ 24)
    (h : genOid a = genOid b) : a = b := by
  have hm : a % 16 ^ 24 = b % 16 ^ 24 := hexDigits_inj 24 (congrArg String.data h)
  have hdvd : (16 ^ 24 : ℕ) ∣ b - a := (Nat.modEq_iff_dvd' hab).1 hm
  have := Nat.eq_zero_of_dvd_of_lt hdvd hd
  omega

theorem seedSpots_keys (lotId : String) : ∀ (is : List ℕ) (n : ℕ),
    (seedSpots lotId n is).map Prod.fst = (List.range' n is.length).map genOid := by
  intro is
  induction is with
  | nil => intro n; rfl
  | cons i is ih =>
    intro n
    simp only [seedSpots, List.map_cons, List.length_cons, List.range'_succ, ih]

theorem seedSpots_unoccupied (lotId : String) : ∀ (is : List ℕ) (n : ℕ),
    ∀ p ∈ seedSpots lotId n is, p.2.is_occupied = false := by
  intro is
  induction is with
  | nil => intro n p hp; cases hp
  | cons i is ih =>
    intro n p hp
    rcases List.mem_cons.1 hp with rfl | hp'
    · rfl
    · exact ih (n + 1) p hp'

theorem seedSpots_keys_nodup (lotId : String) (n : ℕ) :
    ((seedSpots lotId n (List.range' 1 12)).map Prod.fst).Nodup := by
  rw [seedSpots_keys]
  have hlen : (List.range' 1 12).length = 12 := by simp
  rw [hlen]
  refine List.Nodup.map_on ?_ (List.nodup_range' n 12)
  intro x hx y hy hxy
  rw [List.mem_range'_1] at hx hy
  have hbig : (11 : ℕ) < 16 ^ 24 := by norm_num
  rcases le_total x y with hle | hle
  · exact genOid_inj_close hle (by omega) hxy
  · exact (genOid_inj_close hle (by omega) hxy.symm).symm

theorem refsSpot_of_parse {b : BookingDoc} {so : String}
    (h : parseOid b.spot_id = some so) (k : String) :
    refsSpot b k = (so == k) := by
  unfold refsSpot
  rw [h]
  by_cases hk : so = k
  · subst hk
    simp
  · have h1 : ((some so == some k) : Bool) = false := by simp [hk]
    have h2 : ((so == k) : Bool) = false := by simp [hk]
    rw [h1, h2]

theorem refsSpot_of_parse_none {b : BookingDoc} {k : String}
    (h : parseOid b.spot_id = none) : refsSpot b k = false := by
  unfold refsSpot
  rw [h]
  rfl

theorem activeCount_decomp (m1 m2 : List (String × BookingDoc)) (x : String × BookingDoc)
    (k : String) :
    activeCount (m1 ++ x :: m2) k = activeCount m1 k
      + ((if x.2.status == BStatus.active && refsSpot x.2 k then 1 else 0)
        + activeCount m2 k) := by
  rw [activeCount_append, activeCount_cons]

theorem notMem_keys_ne {α : Type} {l : List (String × α)} {k : String}
    (h : k ∉ l.map Prod.fst) : ∀ p ∈ l, p.1 ≠ k := by
  intro p hp he
  exact h (he ▸ List.mem_map_of_mem Prod.fst hp)

theorem inv_empty : Inv emptyDB := by
  refine ⟨?_, ?_, ?_, ?_⟩
  · intro p hp
    cases hp
  · exact List.nodup_nil
  · intro _
    rfl
  · intro _
    rfl

theorem inv_seed {db : DB} (hinv : Inv db) : Inv (seed db).2 := by
  obtain ⟨h1, h2, h3, h4⟩ := hinv
  rcases hl : db.parkinglot with _ | ⟨x, xs⟩
  · have hsp : db.parkingspot = [] := h3 hl
    have hbk : db.booking = [] := h4 hl
    simp only [seed, hl, hsp, hbk, List.nil_append]
    refine ⟨?_, ?_, ?_, ?_⟩
    · intro p hp
      rw [seedSpots_unoccupied _ _ _ p hp]
      rfl
    · exact seedSpots_keys_nodup _ _
    · intro h
      exact absurd h (by simp)
    · intro _
      rfl
  · have heq : (seed db).2 = db := by simp [seed, hl]
    rw [heq]
    exact ⟨h1, h2, h3, h4⟩

theorem activeCount_start_append (bookings : List (String × BookingDoc)) (bid : String)
    (req : StartBookingRequest) (now : ℚ) (sid k : String)
    (hps : parseOid req.spot_id = some sid) :
    activeCount (bookings ++ [(bid, { lot_id := req.lot_id, spot_id := req.spot_id, vehicle_plate := req.vehicle_plate, user_name := req.user_name, start_time := some now, end_time := none, status := .active })]) k
      = activeCount bookings k + (if sid = k then 1 else 0) := by
  rw [activeCount_append, activeCount_cons, activeCount_nil]
  rw [refsSpot_of_parse hps]
  by_cases hk : sid = k
  · simp [hk]
  · simp [hk]

theorem inv_runStart {db : DB} (hinv : Inv db) (req : StartBookingRequest) (now : ℚ) :
    Inv (runStart db req now) := by
  rcases hres : start_booking db req now with e | ⟨r, db'⟩
  · unfold runStart
    rw [hres]
    exact hinv
  · unfold runStart
    rw [hres]
    obtain ⟨sid, sp, hps, hf, hocc, -, hdb'⟩ := start_booking_ok_char hres
    subst hdb'
    obtain ⟨h1, h2, h3, h4⟩ := hinv
    have hlotsne : db.parkinglot ≠ [] := by
      intro hl
      rw [h3 hl] at hf
      exact Option.noConfusion hf
    obtain ⟨l1, l2, hsp_eq, hl1ne, hupd⟩ :=
      updateFirst_decomp hf fun s => { s with is_occupied := true }
    have hl2ne : ∀ p ∈ l2, p.1 ≠ sid := by
      have hkeys : (db.parkingspot.map Prod.fst).Nodup := h2
      rw [hsp_eq, List.map_append, List.map_cons] at hkeys
      have := (List.nodup_cons.1 (hkeys.of_append_right)).1
      exact notMem_keys_ne this
    refine ⟨?_, ?_, ?_, ?_⟩
    · intro p hp
      rw [hupd] at hp
      rw [activeCount_start_append db.booking (genOid db.nextId) req now sid p.1 hps]
      rcases List.mem_append.1 hp with hmem | hmem'
      · have hne := hl1ne p hmem
        have hpold : p ∈ db.parkingspot := by
          rw [hsp_eq]
          exact List.mem_append_left _ hmem
        rw [if_neg (fun he => hne he.symm), h1 p hpold, Nat.add_zero]
      · rcases List.mem_cons.1 hmem' with rfl | hmem2
        · have hmem0 : (sid, sp) ∈ db.parkingspot := by
            rw [hsp_eq]
            exact List.mem_append_right _ (List.mem_cons_self _ _)
          have hold := h1 (sid, sp) hmem0
          rw [hocc] at hold
          norm_num at hold
          simp [hold]
        · have hne := hl2ne p hmem2
          have hpold : p ∈ db.parkingspot := by
            rw [hsp_eq]
            exact List.mem_append_right _ (List.mem_cons_of_mem _ hmem2)
          rw [if_neg (fun he => hne he.symm), h1 p hpold, Nat.add_zero]
    · rw [updateFirst_map_fst]
      exact h2
    · intro hl
      exact absurd hl hlotsne
    · intro hl
      exact absurd hl hlotsne

theorem freeSpot_parse_none {spot_id : String} (spots : List (String × SpotDoc))
    (h : parseOid spot_id = none) : freeSpot spots spot_id = spots := by
  simp [freeSpot, h]

theorem freeSpot_parse_some {spot_id so : String} (spots : List (String × SpotDoc))
    (h : parseOid spot_id = some so) :
    freeSpot spots spot_id = updateFirst spots so fun s => { s with is_occupied := false } := by
  simp [freeSpot, h]

theorem inv_runEnd {db : DB} (hinv : Inv db) (booking_id : String) (now : ℚ) :
    Inv (runEnd db booking_id now) := by
  rcases hres : end_booking db booking_id now with e | ⟨r, db'⟩
  · unfold runEnd
    rw [hres]
    exact hinv
  · have hrun : runEnd db booking_id now = db' := by
      unfold runEnd
      rw [hres]
    rw [hrun]
    obtain ⟨bid, b, hpb, hfb, hact, -, hdb'⟩ := end_booking_ok_char hres
    rw [hdb']
    obtain ⟨h1, h2, h3, h4⟩ := hinv
    have hlotsne : db.parkinglot ≠ [] := by
      intro hl
      rw [h4 hl] at hfb
      exact Option.noConfusion hfb
    obtain ⟨m1, m2, hbk_eq, hm1ne, hbupd⟩ := updateFirst_decomp hfb
      fun bb => { bb with status := .completed, end_time := some now }
    have hcountold : ∀ k, activeCount db.booking k
        = activeCount m1 k + ((if refsSpot b k then 1 else 0) + activeCount m2 k) := by
      intro k
      rw [hbk_eq, activeCount_decomp]
      congr 2
      simp [hact]
    have hcountnew : ∀ k, activeCount (updateFirst db.booking bid
        fun bb => { bb with status := .completed, end_time := some now }) k
        = activeCount m1 k + activeCount m2 k := by
      intro k
      rw [hbupd, activeCount_decomp]
      simp
    rcases hpso : parseOid b.spot_id with _ | so
    · -- spot reference unresolvable: spot list untouched, booking refs nothing
      rw [freeSpot_parse_none db.parkingspot hpso]
      refine ⟨?_, ?_, fun hl => absurd hl hlotsne, fun hl => absurd hl hlotsne⟩
      · intro p hp
        have hcnt : activeCount db.booking p.1
            = activeCount m1 p.1 + activeCount m2 p.1 := by
          rw [hcountold p.1, refsSpot_of_parse_none hpso]
          norm_num
        have hp' : p ∈ db.parkingspot := hp
        rw [hcountnew, ← hcnt, h1 p hp']
      · exact h2
    · rw [freeSpot_parse_some db.parkingspot hpso]
      rcases hfso : findOne db.parkingspot so with _ | q
      · -- no spot with that id: update is a no-op
        have hnone : ∀ p ∈ db.parkingspot, p.1 ≠ so := findOne_none hfso
        rw [updateFirst_of_findOne_none hfso]
        refine ⟨?_, ?_, fun hl => absurd hl hlotsne, fun hl => absurd hl hlotsne⟩
        · intro p hp
          have hrp : refsSpot b p.1 = false := by
            rw [refsSpot_of_parse hpso]
            simp [Ne.symm (hnone p hp)]
          have hcnt : activeCount db.booking p.1
              = activeCount m1 p.1 + activeCount m2 p.1 := by
            rw [hcountold p.1, hrp]
            norm_num
          rw [hcountnew, ← hcnt, h1 p hp]
        · exact h2
      · obtain ⟨qk, spx⟩ := q
        have hqk : so = qk := (findOne_key hfso).symm
        subst hqk
        obtain ⟨s1, s2, hss_eq, hs1ne, hsupd⟩ :=
          updateFirst_decomp hfso fun s => { s with is_occupied := false }
        rw [hsupd]
        have hs2ne : ∀ p ∈ s2, p.1 ≠ so := by
          have hkeys : (db.parkingspot.map Prod.fst).Nodup := h2
          rw [hss_eq, List.map_append, List.map_cons] at hkeys
          have := (List.nodup_cons.1 (hkeys.of_append_right)).1
          exact notMem_keys_ne this
        have hso_occ : spx.is_occupied = true ∧
            activeCount m1 so + activeCount m2 so = 0 := by
          have hmem0 : (so, spx) ∈ db.parkingspot := by
            rw [hss_eq]
            exact List.mem_append_right _ (List.mem_cons_self _ _)
          have hold := h1 (so, spx) hmem0
          have hcnt := hcountold so
          rw [refsSpot_of_parse hpso] at hcnt
          simp only [beq_self_eq_true, if_true] at hcnt
          cases hocc : spx.is_occupied with
          | false =>
            rw [hocc] at hold
            norm_num at hold
            omega
          | true =>
            rw [hocc] at hold
            norm_num at hold
            exact ⟨rfl, by omega⟩
        refine ⟨?_, ?_, fun hl => absurd hl hlotsne, fun hl => absurd hl hlotsne⟩
        · intro p hp
          rw [hcountnew]
          rcases List.mem_append.1 hp with hmem | hmem'
          · have hne := hs1ne p hmem
            have hpold : p ∈ db.parkingspot := by
              rw [hss_eq]
              exact List.mem_append_left _ hmem
            have hrp : refsSpot b p.1 = false := by
              rw [refsSpot_of_parse hpso]
              simp [Ne.symm hne]
            have hcnt := hcountold p.1
            rw [hrp] at hcnt
            norm_num at hcnt
            rw [← hcnt, h1 p hpold]
          · rcases List.mem_cons.1 hmem' with rfl | hmem2
            · norm_num
              omega
            · have hne := hs2ne p hmem2
              have hpold : p ∈ db.parkingspot := by
                rw [hss_eq]
                exact List.mem_append_right _ (List.mem_cons_of_mem _ hmem2)
              have hrp : refsSpot b p.1 = false := by
                rw [refsSpot_of_parse hpso]
                simp [Ne.symm hne]
              have hcnt := hcountold p.1
              rw [hrp] at hcnt
              norm_num at hcnt
              rw [← hcnt, h1 p hpold]
        · rw [← hsupd, updateFirst_map_fst]
          exact h2

theorem inv_step {db : DB} (hinv : Inv db) (op : Op) : Inv (step db op) := by
  cases op with
  | seedOp => exact inv_seed hinv
  | startOp req now => exact inv_runStart hinv req now
  | endOp bid now => exact inv_runEnd hinv bid now

theorem inv_run (ops : List Op) : Inv (run ops) := by
  suffices h : ∀ (l : List Op) (db : DB), Inv db → Inv (l.foldl step db) from
    h ops emptyDB inv_empty
  intro l
  induction l with
  | nil => intro db h; exact h
  | cons op l ih =>
    intro db h
    exact ih (step db op) (inv_step h op)

/-- **C5**: in every store reachable from the empty store by a sequence
of seed, start and end calls, a spot's occupancy flag is true if and only
if exactly one active booking references that spot; in particular no
reachable store has two active bookings referencing the same spot. -/
theorem occupancy_iff_one_active (ops : List Op) :
    ∀ p ∈ (run ops).parkingspot,
      (p.2.is_occupied = true ↔ activeCount (run ops).booking p.1 = 1) ∧
      activeCount (run ops).booking p.1 ≤ 1 := by
  intro p hp
  obtain ⟨h1, -, -, -⟩ := inv_run ops
  have h := h1 p hp
  cases hocc : p.2.is_occupied with
  | false =>
    rw [hocc] at h
    norm_num at h
    simp [h]
  | true =>
    rw [hocc] at h
    norm_num at h
    simp [h]

theorem occupancy_iff_one_active_witness :
    (false = true ↔ activeCount (run [Op.seedOp]).booking (genOid 1) = 1) ∧
    activeCount (run [Op.seedOp]).booking (genOid 1) ≤ 1 :=
  occupancy_iff_one_active [Op.seedOp]
    (genOid 1, { lot_id := genOid 0, spot_number := "1", vehicle_type := .car, is_occupied := false })
    (by decide)

/-! ### Claim theorems (seeding, schema, empty filter) -/

/-- **C8**: Seeding is idempotent: when at least one lot exists, `seed`
inserts nothing and returns `seeded = false`; hence seeding twice in
succession creates the demo data at most once, on the first call only
(the second call always answers `seeded = false` and leaves the store
unchanged). -/
theorem seed_idempotent (db : DB) :
    (db.parkinglot ≠ [] → seed db = ({ status := "ok", seeded := false }, db)) ∧
    (seed (seed db).2).1.seeded = false ∧ (seed (seed db).2).2 = (seed db).2 := by
  rcases hl : db.parkinglot with _ | ⟨x, xs⟩
  · refine ⟨fun hne => absurd rfl hne, ?_, ?_⟩ <;> simp [seed, hl]
  · refine ⟨fun _ => ?_, ?_, ?_⟩ <;> simp [seed, hl]

theorem seed_idempotent_witness :
    demoDB.parkinglot ≠ [] ∧ seed demoDB = ({ status := "ok", seeded := false }, demoDB) :=
  ⟨by decide, (seed_idempotent demoDB).1 (by decide)⟩

/-- **C9** (amended): every parking spot's vehicle-category tag is drawn
from the fixed closed set `{car, motorcycle, ev, accessible}` — the
`Literal` type of `ParkingSpot.vehicle_type` — not from
`{standard, motorcycle, electric, accessible}` as the claim stated. -/
theorem vehicle_type_closed_set (db : DB) (p : String × SpotDoc)
    (_hp : p ∈ db.parkingspot) :
    vtypeStr p.2.vehicle_type ∈ ["car", "motorcycle", "ev", "accessible"] := by
  cases h : p.2.vehicle_type <;> simp [vtypeStr]

theorem vehicle_type_closed_set_witness :
    vtypeStr VType.car ∈ ["car", "motorcycle", "ev", "accessible"] :=
  vehicle_type_closed_set demoDB (genOid 1,
    { lot_id := genOid 0, spot_number := "1", vehicle_type := .car, is_occupied := false })
    (by decide)

/-- **C9** (counterexample): the first seeded spot carries the tag
`"car"`, which is outside the claimed set
`{standard, motorcycle, electric, accessible}`. -/
theorem vehicle_type_spec_set_counterexample :
    (genOid 1, ({ lot_id := genOid 0, spot_number := "1", vehicle_type := .car, is_occupied := false } : SpotDoc)) ∈ demoDB.parkingspot ∧
      vtypeStr VType.car ∉ (["standard", "motorcycle", "electric", "accessible"] : List String) :=
  ⟨by decide, by decide⟩

/-- **C10**: supplying `vehicle_type` as the empty string is falsy in
Python, so the category filter is not applied: the call behaves exactly
as if `vehicle_type` were absent. -/
theorem empty_vehicle_type_filter_noop (hav : ℚ → ℚ → ℚ → ℚ → ℚ) (db : DB) (lat lng : ℚ) :
    recommend hav db { lat := lat, lng := lng, vehicle_type := some "" } =
      recommend hav db { lat := lat, lng := lng, vehicle_type := none } := by
  have hq : ∀ lotId, qualifying db.parkingspot lotId (some "")
      = qualifying db.parkingspot lotId none := by
    intro lotId
    simp [qualifying, truthy]
  have hloop := recLoop_congr hav db { lat := lat, lng := lng, vehicle_type := some "" }
    { lat := lat, lng := lng, vehicle_type := none } rfl rfl hq db.parkinglot none
  unfold recommend
  simp only [hloop]

/-- **C1**: `recommend` fails `NoLotsAvailable` iff the store holds zero
lots, fails `NoSuitableSpot` iff lots exist but every lot has zero
qualifying spots, and otherwise returns the first lot (in enumeration
order) minimizing `score = dist - 0.05 * (qualifying spot count)` —
strictly better than every earlier qualifying lot, no worse than any
qualifying lot — paired with the first qualifying spot of that lot.
`hav` ranges over all distance functions, so this holds in particular
for the floating-point haversine the source uses. -/
theorem recommend_minimizes (hav : ℚ → ℚ → ℚ → ℚ → ℚ) (db : DB)
    (req : RecommendationRequest) :
    (recommend hav db req = .error ⟨404, "No parking lots available. Seed data first."⟩ ↔
      db.parkinglot = []) ∧
    (recommend hav db req = .error ⟨404, "No suitable spots found"⟩ ↔
      (db.parkinglot ≠ [] ∧
        ∀ l ∈ db.parkinglot, qualifying db.parkingspot l.1 req.vehicle_type = [])) ∧
    (∀ resp, recommend hav db req = .ok resp →
      ∃ pre l post sp tl,
        db.parkinglot = pre ++ l :: post ∧
        qualifying db.parkingspot l.1 req.vehicle_type = sp :: tl ∧
        (∀ l' ∈ pre, qualifying db.parkingspot l'.1 req.vehicle_type = [] ∨
          lotScore hav db req l < lotScore hav db req l') ∧
        (∀ l' ∈ db.parkinglot, qualifying db.parkingspot l'.1 req.vehicle_type = [] ∨
          lotScore hav db req l ≤ lotScore hav db req l') ∧
        resp = { lot_id := l.1, lot_name := l.2.name, spot_id := some sp.1,
                 spot_number := some sp.2.spot_number,
                 reason := "Closest lot with available matching spots" }) :=
  ⟨recommend_noLots_iff hav db req, recommend_noSuitable_iff hav db req,
   fun _ h => recommend_ok_char h⟩

theorem recommend_minimizes_witness :
    ∃ pre l post sp tl,
      demoDB.parkinglot = pre ++ l :: post ∧
      qualifying demoDB.parkingspot l.1 req0.vehicle_type = sp :: tl ∧
      (∀ l' ∈ pre, qualifying demoDB.parkingspot l'.1 req0.vehicle_type = [] ∨
        lotScore hav0 demoDB req0 l < lotScore hav0 demoDB req0 l') ∧
      (∀ l' ∈ demoDB.parkinglot, qualifying demoDB.parkingspot l'.1 req0.vehicle_type = [] ∨
        lotScore hav0 demoDB req0 l ≤ lotScore hav0 demoDB req0 l') ∧
      ({ lot_id := genOid 0, lot_name := "Downtown Central", spot_id := some (genOid 1),
         spot_number := some "1",
         reason := "Closest lot with available matching spots" } : RecommendationResponse)
        = { lot_id := l.1, lot_name := l.2.name, spot_id := some sp.1,
            spot_number := some sp.2.spot_number,
            reason := "Closest lot with available matching spots" } :=
  (recommend_minimizes hav0 demoDB req0).2.2 _ rfl

/-- **C6**: with a truthy `vehicle_type` filter, a successful
recommendation returns a free spot whose category equals the filter
exactly; and when every spot of the requested category is occupied (even
if other categories have free spots), the call fails with the 404
no-suitable-spot error. -/
theorem recommend_filter_respected (hav : ℚ → ℚ → ℚ → ℚ → ℚ) (db : DB)
    (req : RecommendationRequest) (s : String)
    (hvt : req.vehicle_type = some s) (hs : s ≠ "") :
    (∀ resp, recommend hav db req = .ok resp →
      ∃ sid spd, resp.spot_id = some sid ∧ (sid, spd) ∈ db.parkingspot ∧
        spd.is_occupied = false ∧ vtypeStr spd.vehicle_type = s) ∧
    (db.parkinglot ≠ [] →
      (∀ p ∈ db.parkingspot, vtypeStr p.2.vehicle_type = s → p.2.is_occupied = true) →
      recommend hav db req = .error ⟨404, "No suitable spots found"⟩) := by
  constructor
  · intro resp h
    obtain ⟨pre, l, post, sp, tl, hlots, hq, hpre, hall, hresp⟩ := recommend_ok_char h
    have hsp : sp ∈ qualifying db.parkingspot l.1 req.vehicle_type := by
      rw [hq]
      exact List.mem_cons_self sp tl
    rw [hvt] at hsp
    obtain ⟨hmem, -, hunocc⟩ := mem_qualifying hsp
    have hv := mem_qualifying_vtype hs hsp
    refine ⟨sp.1, sp.2, ?_, hmem, hunocc, hv⟩
    rw [hresp]
  · intro hne hocc
    rw [recommend_noSuitable_iff]
    refine ⟨hne, ?_⟩
    intro l _
    rw [hvt]
    exact qualifying_empty_of_all_occupied hs hocc

theorem recommend_filter_respected_witness :
    (∃ sid spd,
      ({ lot_id := genOid 0, lot_name := "Downtown Central", spot_id := some (genOid 3),
         spot_number := some "3",
         reason := "Closest lot with available matching spots" } : RecommendationResponse).spot_id
        = some sid ∧
      (sid, spd) ∈ demoDB.parkingspot ∧ spd.is_occupied = false ∧
      vtypeStr spd.vehicle_type = "ev") ∧
    recommend hav0 evOccDB reqEv = .error ⟨404, "No suitable spots found"⟩ := by
  constructor
  · exact (recommend_filter_respected hav0 demoDB reqEv "ev" rfl (by decide)).1 _ rfl
  · exact (recommend_filter_respected hav0 evOccDB reqEv "ev" rfl (by decide)).2
      (by decide) (by decide)

/-! ### Claim theorems (booking start) -/

/-- **C2** (amended): a `start` call whose `spot_id` resolves to an
existing spot with `is_occupied = true` never succeeds and leaves the
store unchanged; it fails with the 409 conflict whenever `lot_id` is a
well-formed ObjectId (a malformed `lot_id` fails earlier with 400). -/
theorem start_occupied_conflict (db : DB) (req : StartBookingRequest) (now : ℚ)
    (sid : String) (sp : SpotDoc)
    (hps : parseOid req.spot_id = some sid)
    (hf : findOne db.parkingspot sid = some (sid, sp))
    (hocc : sp.is_occupied = true) :
    (∀ r db', start_booking db req now ≠ .ok (r, db')) ∧
    runStart db req now = db ∧
    ((parseOid req.lot_id).isSome = true →
      start_booking db req now = .error ⟨409, "Spot already occupied"⟩) := by
  rcases hpl : parseOid req.lot_id with _ | lo
  · have he : start_booking db req now = .error ⟨400, "Invalid lot id"⟩ := by
      simp only [start_booking, hpl]
    refine ⟨?_, ?_, ?_⟩
    · intro r db' hok
      rw [he] at hok
      exact Except.noConfusion hok
    · unfold runStart
      rw [he]
    · intro hs
      simp at hs
  · have he : start_booking db req now = .error ⟨409, "Spot already occupied"⟩ := by
      simp only [start_booking, hpl, hps, hf, hocc, if_true]
    refine ⟨?_, ?_, fun _ => he⟩
    · intro r db' hok
      rw [he] at hok
      exact Except.noConfusion hok
    · unfold runStart
      rw [he]

theorem start_occupied_conflict_witness :
    runStart occDB occReq 0 = occDB ∧
    start_booking occDB occReq 0 = .error ⟨409, "Spot already occupied"⟩ := by
  have h := start_occupied_conflict occDB occReq 0 "aaaaaaaaaaaaaaaaaaaaaaaa"
    { lot_id := "x", spot_number := "1", vehicle_type := .car, is_occupied := true }
    rfl rfl rfl
  exact ⟨h.2.1, h.2.2 rfl⟩

/-- **C2** (counterexample): with a malformed `lot_id`, a start call on an
existing occupied spot fails with 400 `Invalid lot id`, not with the 409
conflict the claim states. -/
theorem start_occupied_conflict_counterexample :
    parseOid badLotReq.spot_id = some "aaaaaaaaaaaaaaaaaaaaaaaa" ∧
    findOne occDB.parkingspot "aaaaaaaaaaaaaaaaaaaaaaaa"
      = some ("aaaaaaaaaaaaaaaaaaaaaaaa",
        { lot_id := "x", spot_number := "1", vehicle_type := .car, is_occupied := true }) ∧
    start_booking occDB badLotReq 0 = .error ⟨400, "Invalid lot id"⟩ ∧
    (⟨400, "Invalid lot id"⟩ : HErr) ≠ ⟨409, "Spot already occupied"⟩ :=
  ⟨rfl, rfl, rfl, by decide⟩

/-- **C7** (amended): `start` fails fast with 400 `Invalid lot id` exactly
when `lot_id` is malformed; when `lot_id` is well-formed but no lot with
that id exists, the `find_one` result is discarded and the booking
proceeds — resolving to a free existing spot even succeeds, so there is
no `LotNotFound` failure. -/
theorem start_lot_check (db : DB) (req : StartBookingRequest) (now : ℚ) :
    (parseOid req.lot_id = none → start_booking db req now = .error ⟨400, "Invalid lot id"⟩) ∧
    (∀ lo sid sp, parseOid req.lot_id = some lo → findOne db.parkinglot lo = none →
      parseOid req.spot_id = some sid → findOne db.parkingspot sid = some (sid, sp) →
      sp.is_occupied = false → isOk (start_booking db req now) = true) := by
  constructor
  · intro hpl
    simp only [start_booking, hpl]
  · intro lo sid sp hpl _hlot hps hf hocc
    simp [start_booking, hpl, hps, hf, hocc, isOk]

theorem start_lot_check_witness :
    start_booking occDB badLotReq 0 = .error ⟨400, "Invalid lot id"⟩ ∧
    isOk (start_booking demoDB absentLotReq 0) = true := by
  refine ⟨(start_lot_check occDB badLotReq 0).1 rfl, ?_⟩
  exact (start_lot_check demoDB absentLotReq 0).2 "bbbbbbbbbbbbbbbbbbbbbbbb" (genOid 1)
    { lot_id := genOid 0, spot_number := "1", vehicle_type := .car, is_occupied := false }
    rfl rfl rfl rfl rfl

/-- **C7** (counterexample): in the seeded store, a start request whose
`lot_id` is a well-formed ObjectId held by no lot does not fail with 404
`LotNotFound` — the booking is created. -/
theorem start_lot_check_counterexample :
    validOid absentLotReq.lot_id = true ∧
    findOne demoDB.parkinglot "bbbbbbbbbbbbbbbbbbbbbbbb" = none ∧
    isOk (start_booking demoDB absentLotReq 0) = true :=
  ⟨rfl, rfl, rfl⟩

/-! ### Claim theorems (booking end) -/

/-- **C3**: ending an active booking bills
`amount_due = round(duration_minutes / 60 * price_per_hour, 2)`, where
`price_per_hour` is the referenced lot's rate and defaults to `5.0`
when the lot reference is malformed or absent; in particular, ending
exactly 60 minutes after start at rate 5.0/hr yields `amount_due = 5`. -/
theorem end_booking_amount (db : DB) (booking_id : String) (now : ℚ)
    (bid : String) (b : BookingDoc) (t : ℚ)
    (hpb : parseOid booking_id = some bid)
    (hfb : findOne db.booking bid = some (bid, b))
    (hact : b.status = .active)
    (hst : b.start_time = some t) :
    (∃ db', end_booking db booking_id now =
      .ok ({ duration_minutes := now - t,
             amount_due := round2 ((now - t) / 60 * resolvedPrice db b),
             currency := "USD" }, db')) ∧
    (parseOid b.lot_id = none → resolvedPrice db b = 5) ∧
    (∀ lo, parseOid b.lot_id = some lo → findOne db.parkinglot lo = none →
      resolvedPrice db b = 5) ∧
    (∀ lo kl lot, parseOid b.lot_id = some lo → findOne db.parkinglot lo = some (kl, lot) →
      resolvedPrice db b = lot.price_per_hour) ∧
    (now = t + 60 → resolvedPrice db b = 5 →
      ∃ db', end_booking db booking_id now =
        .ok ({ duration_minutes := 60, amount_due := 5, currency := "USD" }, db')) := by
  have he : ∃ db', end_booking db booking_id now =
      .ok ({ duration_minutes := now - t,
             amount_due := round2 ((now - t) / 60 * resolvedPrice db b),
             currency := "USD" }, db') := by
    refine ⟨{ db with
        booking := updateFirst db.booking bid
          fun bb => { bb with status := .completed, end_time := some now }
        parkingspot := freeSpot db.parkingspot b.spot_id }, ?_⟩
    simp only [end_booking, hpb, hfb, hact, hst]
    rw [if_neg (by simp)]
    simp [Option.getD]
  refine ⟨he, ?_, ?_, ?_, ?_⟩
  · intro hnone
    cases hbe : (b.lot_id == "") with
    | true => simp [resolvedPrice, hbe]
    | false => simp [resolvedPrice, hbe, hnone]
  · intro lo hlo hnone
    simp [resolvedPrice, parseOid_ne_empty hlo, hlo, hnone]
  · intro lo kl lot hlo hfind
    simp [resolvedPrice, parseOid_ne_empty hlo, hlo, hfind]
  · intro hnow hp5
    obtain ⟨db', hdb'⟩ := he
    subst hnow
    refine ⟨db', ?_⟩
    rw [hdb', hp5]
    have h60 : t + 60 - t = (60 : ℚ) := by ring
    rw [h60]
    have hamt : round2 ((60 : ℚ) / 60 * 5) = 5 := by
      norm_num [round2, roundHalfEven, Int.fract]
    rw [hamt]

theorem end_booking_amount_witness :
    ∃ db', end_booking demoBookedDB (genOid 13) 160 =
      .ok ({ duration_minutes := 60, amount_due := 5, currency := "USD" }, db') := by
  have h := end_booking_amount demoBookedDB (genOid 13) 160 (genOid 13) bdoc13 100
    rfl rfl rfl rfl
  exact h.2.2.2.2 (by norm_num) (h.2.2.2.1 (genOid 0) (genOid 0) demoLot rfl rfl)

/-- Evaluation of ending the demo booking, with billing left symbolic. -/
theorem end_demoBooked_eval : end_booking demoBookedDB (genOid 13) 160 =
    .ok ({ duration_minutes := 160 - (100 : ℚ),
           amount_due := round2 ((160 - (100 : ℚ)) / 60 * resolvedPrice demoBookedDB bdoc13),
           currency := "USD" },
      { demoBookedDB with
        booking := updateFirst demoBookedDB.booking (genOid 13)
          fun bb => { bb with status := .completed, end_time := some 160 }
        parkingspot := updateFirst demoBookedDB.parkingspot (genOid 3)
          fun s => { s with is_occupied := false } }) := rfl

/-- **C4**: ending the same booking a second time after a successful end
fails with 409 `Booking already closed`: the first call set the status to
`completed`, and `end_booking` bills only bookings whose status is
`active`, so `amount_due` is computed at most once per booking. -/
theorem end_booking_twice (db : DB) (booking_id : String) (now now' : ℚ)
    (r : EndBookingResult) (db' : DB)
    (h : end_booking db booking_id now = .ok (r, db')) :
    end_booking db' booking_id now' = .error ⟨409, "Booking already closed"⟩ := by
  obtain ⟨bid, b, hpb, hfb, hact, -, hdb'⟩ := end_booking_ok_char h
  have hfb' : findOne db'.booking bid =
      some (bid, { b with status := .completed, end_time := some now }) := by
    rw [hdb']
    exact findOne_updateFirst_self hfb _
  simp [end_booking, hpb, hfb']

theorem end_booking_twice_witness :
    end_booking (runEnd demoBookedDB (genOid 13) 160) (genOid 13) 200 =
      .error ⟨409, "Booking already closed"⟩ := by
  have hrun : runEnd demoBookedDB (genOid 13) 160 =
      { demoBookedDB with
        booking := updateFirst demoBookedDB.booking (genOid 13)
          fun bb => { bb with status := .completed, end_time := some 160 }
        parkingspot := updateFirst demoBookedDB.parkingspot (genOid 3)
          fun s => { s with is_occupied := false } } := by
    unfold runEnd
    rw [end_demoBooked_eval]
  have h := end_demoBooked_eval
  rw [← hrun] at h
  exact end_booking_twice demoBookedDB (genOid 13) 160 200 _ _ h

end Parking
